import Mathlib

/-!
Verification of the waybar-calendar widget's event classification and
selection logic.

Modelling conventions:
* Go `time.Time` instants and `time.Duration` values are embedded as `Int`
  nanoseconds. `t1.After(t2)` is `t1 > t2`, `t1.Before(t2)` is `t1 < t2`,
  `time.Until(s)` evaluated at instant `now` is `s - now`, and the zero
  `time.Time{}` value is `0`.
* Functions that read the wall clock (`time.Now()`) receive `now : Int`
  explicitly.
* Go `error` results are embedded as `Option String` (`none` = nil error).
-/

namespace CalWidget

/-- One minute in nanoseconds (Go `time.Minute`). -/
def nsPerMinute : Int := 60000000000

/-- Embeds `calendar.Event` (src/internal/widget/widget.go:766-777), with the
field order of the Go struct. The extra final field `blocking` models the
result of the `IsBlockingEvent` method, which is absent from the provided
sources; see `Event.IsBlockingEvent`. -/
structure Event where
  Subject : String
  Start : Int
  End : Int
  Location : String
  WebLink : String
  TeamsLink : String
  IsTeams : Bool
  Organizer : String
  Attendees : List String
  Body : String
  blocking : Bool
deriving Repr, DecidableEq

/-- Modelled from the spec: the method `IsBlockingEvent` called by both
selectors (src/internal/widget/widget.go:615, src/cmd/click.go:173) is not
among the provided sources. Per spec §4.2 the blocking-flag computation is an
implementation detail of the calendar-ingestion collaborator and "the Selector
only consumes the boolean", so it is modelled as an abstract per-event boolean
field read by this accessor. -/
def Event.IsBlockingEvent (e : Event) : Bool := e.blocking

/-- Embeds `(e *Event) GetStatus()` (src/internal/widget/widget.go:1014-1031).
`now` is Go's `time.Now()`; `now.After(e.End)` is the strict comparison
`now > e.End`, and `time.Until(e.Start)` is `e.Start - now`. -/
def Event.GetStatus (e : Event) (now : Int) : String :=
  if now > e.End then "past"
  else if now > e.Start ∧ now < e.End then "current"
  else
    let timeUntil := e.Start - now
    if timeUntil ≤ 5 * nsPerMinute then "urgent"
    else if timeUntil ≤ 15 * nsPerMinute then "soon"
    else "upcoming"

/-- Embeds `(e *Event) GetTimeUntil()` (src/internal/widget/widget.go:1010-1012). -/
def Event.GetTimeUntil (e : Event) (now : Int) : Int := e.Start - now

/-! ## Event selection (src/internal/widget/widget.go:602-636) -/

/-- The tier order `statusPriority` of `selectBestEvent`
(src/internal/widget/widget.go:608). -/
def statusPriority : List String := ["current", "urgent", "soon", "upcoming"]

/-- The condition under which the first (blocking-preferred) pass of
`selectBestEvent`'s tier loop returns `event`
(src/internal/widget/widget.go:613-621): status equals the target, the event
is blocking, and the body is not skipped by the `upcoming` guard `continue`. -/
def pass1Hit (now : Int) (targetStatus : String) (event : Event) : Bool :=
  (event.GetStatus now == targetStatus && event.IsBlockingEvent) &&
    !(targetStatus == "upcoming" && !(decide (event.Start > now)))

/-- The condition under which the second (fallback) pass of `selectBestEvent`'s
tier loop returns `event` (src/internal/widget/widget.go:624-632). -/
def pass2Hit (now : Int) (targetStatus : String) (event : Event) : Bool :=
  (event.GetStatus now == targetStatus) &&
    !(targetStatus == "upcoming" && !(decide (event.Start > now)))

/-- The `for _, targetStatus := range statusPriority` loop of
`selectBestEvent` (src/internal/widget/widget.go:611-633): for each tier try
the blocking pass, then the fallback pass, then the next tier. Each Go
`for ... range events` loop with an early `return &event` is `List.find?`. -/
def selectTiers (events : List Event) (now : Int) : List String → Option Event
  | [] => none
  | targetStatus :: rest =>
    match events.find? (pass1Hit now targetStatus) with
    | some event => some event
    | none =>
      match events.find? (pass2Hit now targetStatus) with
      | some event => some event
      | none => selectTiers events now rest

/-- Embeds `selectBestEvent` (src/internal/widget/widget.go:602-636). -/
def selectBestEvent (events : List Event) (now : Int) : Option Event :=
  if events.length = 0 then none
  else selectTiers events now statusPriority

/-! ## Click-path selection (src/cmd/click.go:160-194), a verbatim second copy
of the selection routine in the Go sources, embedded separately so the two
copies can be compared. -/

/-- First-pass hit condition of `selectBestEventForClick`
(src/cmd/click.go:171-179). -/
def pass1HitClick (now : Int) (targetStatus : String) (event : Event) : Bool :=
  (event.GetStatus now == targetStatus && event.IsBlockingEvent) &&
    !(targetStatus == "upcoming" && !(decide (event.Start > now)))

/-- Second-pass hit condition of `selectBestEventForClick`
(src/cmd/click.go:182-190). -/
def pass2HitClick (now : Int) (targetStatus : String) (event : Event) : Bool :=
  (event.GetStatus now == targetStatus) &&
    !(targetStatus == "upcoming" && !(decide (event.Start > now)))

/-- Tier loop of `selectBestEventForClick` (src/cmd/click.go:169-191). -/
def selectTiersClick (events : List Event) (now : Int) : List String → Option Event
  | [] => none
  | targetStatus :: rest =>
    match events.find? (pass1HitClick now targetStatus) with
    | some event => some event
    | none =>
      match events.find? (pass2HitClick now targetStatus) with
      | some event => some event
      | none => selectTiersClick events now rest

/-- Embeds `selectBestEventForClick` (src/cmd/click.go:160-194). -/
def selectBestEventForClick (events : List Event) (now : Int) : Option Event :=
  if events.length = 0 then none
  else selectTiersClick events now statusPriority

/-! ## Specification-side selection algorithm, for claim C1.

These definitions follow the wording of spec §4.2 rather than the Go source:
per tier, pass 1 returns the first event whose classified status equals the
tier and whose blocking flag is true, pass 2 (run only when pass 1 found
nothing) drops the blocking requirement, and in both passes an event of tier
`upcoming` is skipped unless its start is strictly after `now`. -/

/-- An event is eligible for tier `tier` per the spec's wording: its
classified status equals the tier, and for the `upcoming` tier its start is
strictly after `now`. -/
def specEligible (now : Int) (tier : String) (e : Event) : Bool :=
  e.GetStatus now == tier && (tier != "upcoming" || decide (e.Start > now))

/-- Spec §4.2 tier examination: the two passes over a single tier list, in
the given priority order; `none` when no tier yields an event. -/
def specSelectLoop (events : List Event) (now : Int) : List String → Option Event
  | [] => none
  | tier :: rest =>
    match events.find? (fun e => specEligible now tier e && e.IsBlockingEvent) with
    | some e => some e
    | none =>
      match events.find? (specEligible now tier) with
      | some e => some e
      | none => specSelectLoop events now rest

/-- The operation `select_best` as worded by spec §4.2 / claim C1. -/
def select_best_spec (events : List Event) (now : Int) : Option Event :=
  specSelectLoop events now ["current", "urgent", "soon", "upcoming"]

/-! ## Click action resolution (src/cmd/click.go:63-78) -/

/-- The externally visible effect of the click handler's link-opening logic. -/
inductive ClickAction where
  | openLink (url : String)
  | noAction
deriving Repr, DecidableEq

/-- Embeds the link-resolution logic of `runClick` (src/cmd/click.go:63-78):
select the best event; if one is selected and its status is `current` or
`urgent`, open its Teams link when it is a Teams meeting with a non-empty
Teams link, otherwise its web link when non-empty; in every other case do
nothing. -/
def runClickDecision (events : List Event) (now : Int) : ClickAction :=
  match selectBestEventForClick events now with
  | none => ClickAction.noAction
  | some bestEvent =>
    if bestEvent.GetStatus now == "current" || bestEvent.GetStatus now == "urgent" then
      if bestEvent.IsTeams && bestEvent.TeamsLink != "" then
        ClickAction.openLink bestEvent.TeamsLink
      else if bestEvent.WebLink != "" then
        ClickAction.openLink bestEvent.WebLink
      else ClickAction.noAction
    else ClickAction.noAction

/-! ## Waybar one-shot error path (src/internal/widget/widget.go:115-140) -/

/-- Embeds the `WaybarOutput` struct (src/internal/widget/widget.go:403-408).
The Go field `Class` is named `Class_` because `class` has another meaning in
Lean. -/
structure WaybarOutput where
  Text : String
  Tooltip : String
  Class_ : String
  Alt : String
deriving Repr, DecidableEq

/-- Whether the character list starting here begins with `pat`. -/
def isPrefixChars : List Char → List Char → Bool
  | [], _ => true
  | _ :: _, [] => false
  | p :: ps, c :: cs => p == c && isPrefixChars ps cs

/-- Whether `pat` occurs as a contiguous run somewhere in the list. -/
def containsChars (pat : List Char) : List Char → Bool
  | [] => isPrefixChars pat []
  | c :: rest => isPrefixChars pat (c :: rest) || containsChars pat rest

/-- Embeds Go `strings.Contains(s, substr)`: substring containment. -/
def goContains (s substr : String) : Bool := containsChars substr.data s.data

/-- Embeds the fetch-failure branch of `RunWaybarWithRefresh`
(src/internal/widget/widget.go:115-140): given the error text of a failed
`GetUpcomingEvents` call, the emitted payload together with the function's
returned error (always `nil`, i.e. `none`: the failure is reported in the
payload, not propagated). -/
def runWaybarOnFetchError (errMsg : String) : WaybarOutput × Option String :=
  if goContains errMsg "authentication" ||
      goContains errMsg "token" ||
      goContains errMsg "login" then
    ({ Text := "Auth Required", Tooltip := "Click to authenticate",
       Class_ := "error", Alt := "auth-required" }, none)
  else
    ({ Text := "Calendar Error", Tooltip := errMsg,
       Class_ := "error", Alt := "error" }, none)

/-! ## Microsoft Graph datetime parsing (src/internal/widget/widget.go:980-1008) -/

/-- Embeds `parseMicrosoftDateTime` (src/internal/widget/widget.go:980-1008).
The loop over `time.Parse` with the five accepted formats (including the
timezone adjustment applied to a successful parse) is abstracted by the
standard-library parameter `tryFormats`, which yields `some t` exactly when
one of the formats parses the string. An empty string, and a string no format
parses, yield the zero `time.Time{}` value, i.e. `0`. -/
def parseMicrosoftDateTime (tryFormats : String → Option Int) (dateTimeStr : String) : Int :=
  if dateTimeStr = "" then 0
  else
    match tryFormats dateTimeStr with
    | some parsedTime => parsedTime
    | none => 0

/-! ## Pango-markup escaping (src/internal/widget/widget.go:479-484) -/

/-- Go `strings.ReplaceAll(s, pat, rep)` restricted to the one-character
patterns used by `escapePangoMarkup`: every occurrence of the character `pat`
is replaced by `rep`, left to right. -/
def goReplaceAllChar (pat : Char) (rep : List Char) : List Char → List Char
  | [] => []
  | c :: rest => (if c == pat then rep else [c]) ++ goReplaceAllChar pat rep rest

/-- Embeds `escapePangoMarkup` (src/internal/widget/widget.go:479-484):
replace `&` first, then `<`, then `>`. -/
def escapePangoMarkup (s : String) : String :=
  let s1 := goReplaceAllChar '&' "&amp;".data s.data
  let s2 := goReplaceAllChar '<' "&lt;".data s1
  let s3 := goReplaceAllChar '>' "&gt;".data s2
  String.mk s3

/-! ## Waybar text and tooltip generation
(src/internal/widget/widget.go:410-477 and 486-553)

Supporting models of the Go standard library pieces the generators use:
decimal rendering for `fmt`'s `%d`, `time.Format("15:04")`, and
`strings.Join`. Go's byte-level `len` and `s[:n]` slicing are modelled at
character granularity (`String.length`, `List.take`); the angle-bracket
freedom proven below is insensitive to where a cut falls, since `<` and `>`
are single-byte characters. -/

/-- One hour in nanoseconds (Go `time.Hour`). -/
def nsPerHour : Int := 3600000000000

/-- The decimal digit character for `d` (`d` taken mod 10, in effect). -/
def decDigit (d : Nat) : Char :=
  if d = 0 then '0' else if d = 1 then '1' else if d = 2 then '2'
  else if d = 3 then '3' else if d = 4 then '4' else if d = 5 then '5'
  else if d = 6 then '6' else if d = 7 then '7' else if d = 8 then '8' else '9'

/-- Digit accumulator for decimal rendering; `fuel` bounds the recursion and
any `fuel ≥ number of digits` yields the full representation. -/
def natToDecimalAux : Nat → Nat → List Char → List Char
  | 0, _, acc => acc
  | _ + 1, 0, acc => acc
  | fuel + 1, n + 1, acc =>
    natToDecimalAux fuel ((n + 1) / 10) (decDigit ((n + 1) % 10) :: acc)

/-- Decimal rendering of a natural number (`n` itself is always enough
fuel). -/
def natToDecimal (n : Nat) : List Char :=
  if n = 0 then ['0'] else natToDecimalAux n n []

/-- Models Go `fmt`'s `%d` for an integer argument. -/
def intToDecimal (t : Int) : String :=
  if t < 0 then String.mk ('-' :: natToDecimal (-t).toNat)
  else String.mk (natToDecimal t.toNat)

/-- Models Go `t.Format("15:04")` on the nanosecond-instant embedding: the
hour and minute of the instant within its day, each zero-padded to two
digits. The timezone a Go `time.Time` carries is not modelled; the instant's
own hour and minute are taken directly. -/
def formatHHMM (t : Int) : String :=
  let minutesOfDay := ((t / nsPerMinute) % 1440).toNat
  let hh := minutesOfDay / 60
  let mm := minutesOfDay % 60
  String.mk [decDigit (hh / 10), decDigit (hh % 10), ':',
    decDigit (mm / 10), decDigit (mm % 10)]

/-- Embeds Go `strings.Join(elems, sep)`. -/
def goJoin (sep : String) : List String → String
  | [] => ""
  | [s] => s
  | s :: rest => s ++ sep ++ goJoin sep rest

/-- Embeds `generateWaybarOutput` (src/internal/widget/widget.go:410-477).
A `nil` meeting pointer is `none`. The Go `switch status` assigning `text`,
`class`, `alt` is the chain of conditionals producing the triple `tca`;
`int(timeUntil.Minutes())` and `int(timeUntil.Hours())` are integer division
by `nsPerMinute` and `nsPerHour` (exact for the positive durations that
reach the `upcoming` branch). -/
def generateWaybarOutput (meeting : Option Event) (now : Int) : WaybarOutput :=
  match meeting with
  | none =>
    { Text := "No meetings", Tooltip := "", Class_ := "no-meeting", Alt := "no-meeting" }
  | some meeting =>
    let status := meeting.GetStatus now
    let timeUntil := meeting.GetTimeUntil now
    let subject := escapePangoMarkup meeting.Subject
    let tca : String × String × String :=
      if status == "urgent" then
        let text := "🔴 " ++ subject
        let text := if text.length > 50 then
          "🔴 " ++ String.mk (subject.data.take 45) ++ "..." else text
        (text, "urgent", "urgent")
      else if status == "soon" then
        let text := "🟡 " ++ subject
        let text := if text.length > 50 then
          "🟡 " ++ String.mk (subject.data.take 45) ++ "..." else text
        (text, "soon", "soon")
      else if status == "current" then
        let text := "🟢 " ++ subject
        let text := if text.length > 50 then
          "🟢 " ++ String.mk (subject.data.take 45) ++ "..." else text
        (text, "current", "current")
      else if status == "upcoming" then
        let text :=
          if timeUntil < nsPerHour then
            "🔵 " ++ subject ++ " (in " ++ intToDecimal (timeUntil / nsPerMinute) ++ "m)"
          else
            "🔵 " ++ subject ++ " (in " ++ intToDecimal (timeUntil / nsPerHour) ++ "h" ++
              intToDecimal ((timeUntil / nsPerMinute) % 60) ++ "m)"
        let text := if text.length > 50 then
          "🔵 " ++ String.mk (subject.data.take 40) ++ "..." else text
        (text, "upcoming", "upcoming")
      else if status == "past" then
        let text := "⚫ " ++ subject
        let text := if text.length > 50 then
          "⚫ " ++ String.mk (subject.data.take 45) ++ "..." else text
        (text, "past", "past")
      else ("", "", "")
    let text := if meeting.IsTeams then "[T] " ++ tca.1 else tca.1
    { Text := text, Tooltip := "", Class_ := tca.2.1, Alt := tca.2.2 }

/-- The tooltip line built for one event by the schedule loop of
`generateWaybarOutputForSchedule` (src/internal/widget/widget.go:507-539). -/
def scheduleLine (now : Int) (event : Event) : String :=
  let timeStr := formatHHMM event.Start ++ "-" ++ formatHHMM event.End
  let status := event.GetStatus now
  let indicator :=
    if status == "current" then "🟢"
    else if status == "urgent" then "🔴"
    else if status == "soon" then "🟡"
    else if status == "upcoming" then "🔵"
    else if status == "past" then "⚫"
    else "📅"
  let title := escapePangoMarkup event.Subject
  let title := if event.IsTeams then title ++ " (Teams)" else title
  let title :=
    if event.Location != "" && !event.IsTeams then
      title ++ " @ " ++ escapePangoMarkup event.Location
    else title
  indicator ++ " " ++ timeStr ++ " " ++ title

/-- Embeds `generateWaybarOutputForSchedule`
(src/internal/widget/widget.go:486-553); the tooltip is the newline-join of
the header, one `scheduleLine` per event (or the no-meetings line), and the
click-hint lines. A `nil` display event is `none`. -/
def generateWaybarOutputForSchedule (displayEvent : Option Event)
    (allEvents : List Event) (now : Int) : WaybarOutput :=
  match displayEvent with
  | none =>
    { Text := "No meetings today", Tooltip := "No meetings scheduled for today",
      Class_ := "no-meeting", Alt := "no-meeting" }
  | some displayEvent =>
    let baseOutput := generateWaybarOutput (some displayEvent) now
    let tooltipLines := ["📅 Today's Schedule:", ""]
    let tooltipLines :=
      if allEvents.length = 0 then
        tooltipLines ++ ["No meetings today"]
      else
        tooltipLines ++ allEvents.map (scheduleLine now) ++
          ["", "💡 Click to open meeting link"] ++
          (if displayEvent.IsTeams then
            ["🔗 Teams meeting - will open directly in Teams"]
          else
            ["🌐 Will open in browser"])
    { baseOutput with Tooltip := goJoin "\n" tooltipLines }

/-- A character list free of raw angle brackets. -/
abbrev cleanChars (l : List Char) : Prop := ∀ c ∈ l, c ≠ '<' ∧ c ≠ '>'

/-- A string free of raw angle brackets. -/
abbrev cleanString (s : String) : Prop := cleanChars s.data

/-! ## Theorems -/

/-- Claim C2 (amended): for every event and every time strictly after the
event's end, `GetStatus` returns `"past"`. The Go comparison `now.After(e.End)`
is strict, so the boundary instant `now = e.End` is excluded. -/
theorem getStatus_past_of_end_before_now (e : Event) (now : Int)
    (h : now > e.End) : e.GetStatus now = "past" := by
  unfold Event.GetStatus
  rw [if_pos h]

/-- Witness for `getStatus_past_of_end_before_now` at a concrete input. -/
theorem getStatus_past_witness :
    (1 : Int) > (Event.mk "" 0 0 "" "" "" false "" [] "" true).End ∧
    Event.GetStatus (Event.mk "" 0 0 "" "" "" false "" [] "" true) 1 = "past" :=
  ⟨by decide, getStatus_past_of_end_before_now (Event.mk "" 0 0 "" "" "" false "" [] "" true) 1 (by decide)⟩

/-- Counterexample to claim C2 as stated: at `now = e.End` exactly (so
`now ≥ e.End`), `GetStatus` returns `"urgent"`, not `"past"`. -/
theorem getStatus_at_end_not_past :
    (0 : Int) ≥ (Event.mk "" 0 0 "" "" "" false "" [] "" true).End ∧
    Event.GetStatus (Event.mk "" 0 0 "" "" "" false "" [] "" true) 0 = "urgent" ∧
    Event.GetStatus (Event.mk "" 0 0 "" "" "" false "" [] "" true) 0 ≠ "past" := by
  refine ⟨by decide, rfl, by decide⟩

/-- Claim C3 (amended): for every event and every time strictly between the
event's start and end, `GetStatus` returns `"current"`. The Go comparison
`now.After(e.Start)` is strict, so the boundary instant `now = e.Start` is
excluded. -/
theorem getStatus_current_of_strictly_between (e : Event) (now : Int)
    (h1 : e.Start < now) (h2 : now < e.End) : e.GetStatus now = "current" := by
  unfold Event.GetStatus
  rw [if_neg (by omega), if_pos ⟨h1, h2⟩]

/-- Witness for `getStatus_current_of_strictly_between` at a concrete input. -/
theorem getStatus_current_witness :
    (Event.mk "" 0 2 "" "" "" false "" [] "" true).Start < 1 ∧ (1:Int) < 2 ∧
    Event.GetStatus (Event.mk "" 0 2 "" "" "" false "" [] "" true) 1 = "current" :=
  ⟨by decide, by decide,
    getStatus_current_of_strictly_between (Event.mk "" 0 2 "" "" "" false "" [] "" true) 1
      (by decide) (by decide)⟩

/-- Counterexample to claim C3 as stated: at `now = e.Start` exactly (with
`e.Start ≤ now < e.End`), `GetStatus` returns `"urgent"`, not `"current"`. -/
theorem getStatus_at_start_not_current :
    (Event.mk "" 0 1 "" "" "" false "" [] "" true).Start ≤ 0 ∧
    (0:Int) < (Event.mk "" 0 1 "" "" "" false "" [] "" true).End ∧
    Event.GetStatus (Event.mk "" 0 1 "" "" "" false "" [] "" true) 0 = "urgent" ∧
    Event.GetStatus (Event.mk "" 0 1 "" "" "" false "" [] "" true) 0 ≠ "current" := by
  refine ⟨by decide, by decide, rfl, by decide⟩

/-- Claim C4: for a well-formed future event (end after start, now strictly
before start) with lead time Δ = start − now, the classifier returns
`"urgent"` for Δ ≤ 5 minutes, `"soon"` for 5 < Δ ≤ 15 minutes, and
`"upcoming"` for Δ > 15 minutes; both boundaries inclusive. -/
theorem getStatus_future_thresholds (e : Event) (now : Int)
    (hse : e.Start ≤ e.End) (hnow : now < e.Start) :
    (e.Start - now ≤ 5 * nsPerMinute → e.GetStatus now = "urgent") ∧
    (5 * nsPerMinute < e.Start - now → e.Start - now ≤ 15 * nsPerMinute →
      e.GetStatus now = "soon") ∧
    (15 * nsPerMinute < e.Start - now → e.GetStatus now = "upcoming") := by
  unfold Event.GetStatus
  rw [if_neg (by omega), if_neg (by omega)]
  refine ⟨fun h => ?_, fun h h' => ?_, fun h => ?_⟩
  · rw [if_pos h]
  · rw [if_neg (by omega), if_pos h']
  · rw [if_neg (by omega), if_neg (by omega)]

/-- Witness for `getStatus_future_thresholds`: an event exactly five minutes
away is classified `"urgent"` (inclusive boundary). -/
theorem getStatus_future_thresholds_witness :
    Event.GetStatus (Event.mk "" 300000000000 360000000000 "" "" "" false "" [] "" true) 0 = "urgent" :=
  (getStatus_future_thresholds (Event.mk "" 300000000000 360000000000 "" "" "" false "" [] "" true) 0
    (by decide) (by decide)).1 (by decide)

/-- Claim C8: an event whose start and end are the zero timestamp produced by
`parseMicrosoftDateTime` for an empty or unparsable datetime string is
classified `"past"` at any time after the zero timestamp. -/
theorem zero_timestamp_classified_past (tryFormats : String → Option Int)
    (s : String) (e : Event) (now : Int)
    (hs : s = "" ∨ tryFormats s = none)
    (_hstart : e.Start = parseMicrosoftDateTime tryFormats s)
    (hend : e.End = parseMicrosoftDateTime tryFormats s)
    (hnow : 0 < now) : e.GetStatus now = "past" := by
  have hzero : parseMicrosoftDateTime tryFormats s = 0 := by
    unfold parseMicrosoftDateTime
    rcases hs with h | h
    · rw [if_pos h]
    · by_cases h' : s = ""
      · rw [if_pos h']
      · rw [if_neg h', h]
  unfold Event.GetStatus
  rw [if_pos (by rw [hend, hzero]; exact hnow)]

/-- Witness for `zero_timestamp_classified_past` at a concrete input. -/
theorem zero_timestamp_classified_past_witness :
    Event.GetStatus (Event.mk "" 0 0 "" "" "" false "" [] "" true) 2 = "past" ∧ (0:Int) < 2 :=
  ⟨zero_timestamp_classified_past (fun _ => none) "" (Event.mk "" 0 0 "" "" "" false "" [] "" true) 2
      (Or.inl rfl) rfl rfl (by decide), by decide⟩

/-- Boolean reshuffling of the first-pass hit condition into the spec's
eligibility-times-blocking form. -/
theorem pass1_bool_eq (s b u a : Bool) :
    ((s && b) && !(u && !a)) = ((s && (!u || a)) && b) := by
  cases s <;> cases b <;> cases u <;> cases a <;> rfl

/-- Boolean reshuffling of the second-pass hit condition. -/
theorem pass2_bool_eq (s u a : Bool) :
    (s && !(u && !a)) = (s && (!u || a)) := by
  cases s <;> cases u <;> cases a <;> rfl

/-- The code's first-pass hit condition coincides with the spec's wording. -/
theorem pass1Hit_eq_spec (now : Int) (t : String) (e : Event) :
    pass1Hit now t e = (specEligible now t e && e.IsBlockingEvent) :=
  pass1_bool_eq (e.GetStatus now == t) e.IsBlockingEvent (t == "upcoming")
    (decide (e.Start > now))

/-- The code's second-pass hit condition coincides with the spec's wording. -/
theorem pass2Hit_eq_spec (now : Int) (t : String) (e : Event) :
    pass2Hit now t e = specEligible now t e :=
  pass2_bool_eq (e.GetStatus now == t) (t == "upcoming") (decide (e.Start > now))

/-- The code's tier loop coincides with the spec's tier loop on every tier
list. -/
theorem selectTiers_eq_specLoop (events : List Event) (now : Int) (ts : List String) :
    selectTiers events now ts = specSelectLoop events now ts := by
  induction ts with
  | nil => rfl
  | cons t rest ih =>
    simp only [selectTiers, specSelectLoop]
    rw [show pass1Hit now t = (fun e => specEligible now t e && e.IsBlockingEvent) from
          funext (fun e => pass1Hit_eq_spec now t e),
        show pass2Hit now t = specEligible now t from
          funext (fun e => pass2Hit_eq_spec now t e),
        ih]

/-- Claim C1: `selectBestEvent` implements exactly the tier-priority,
two-pass selection algorithm worded by the spec, including the `upcoming`
strict-future guard and `none` on the empty list. -/
theorem selectBestEvent_eq_select_best_spec (events : List Event) (now : Int) :
    selectBestEvent events now = select_best_spec events now := by
  cases events with
  | nil => rfl
  | cons e es =>
    show selectTiers (e :: es) now statusPriority = select_best_spec (e :: es) now
    rw [selectTiers_eq_specLoop]
    rfl

/-- Claim C5: the display-path selector and the click-path selector are
behaviorally identical. -/
theorem selectBestEvent_eq_selectBestEventForClick (events : List Event) (now : Int) :
    selectBestEvent events now = selectBestEventForClick events now := by
  unfold selectBestEvent selectBestEventForClick
  have h : ∀ ts, selectTiers events now ts = selectTiersClick events now ts := by
    intro ts
    induction ts with
    | nil => rfl
    | cons t rest ih =>
      simp only [selectTiers, selectTiersClick]
      rw [show pass1HitClick now t = pass1Hit now t from rfl,
          show pass2HitClick now t = pass2Hit now t from rfl, ih]
  rw [h]

/-- A successful first pass implies a successful second-pass condition. -/
theorem pass1Hit_implies_pass2Hit (now : Int) (t : String) (e : Event)
    (h : pass1Hit now t e = true) : pass2Hit now t e = true := by
  have hb : ∀ s b g : Bool, ((s && b) && g) = true → (s && g) = true := by
    intro s b g; cases s <;> cases b <;> cases g <;> simp
  exact hb _ _ _ h

/-- If the tier loop yields an event, some tier of the list hit it. -/
theorem selectTiers_some_hit (events : List Event) (now : Int) (ts : List String)
    (e : Event) (h : selectTiers events now ts = some e) :
    ∃ t ∈ ts, pass2Hit now t e = true := by
  induction ts with
  | nil => simp [selectTiers] at h
  | cons t rest ih =>
    simp only [selectTiers] at h
    cases h1 : events.find? (pass1Hit now t) with
    | some e1 =>
      simp only [h1] at h
      obtain rfl : e1 = e := by injection h
      exact ⟨t, List.mem_cons_self t rest,
        pass1Hit_implies_pass2Hit now t _ (List.find?_some h1)⟩
    | none =>
      simp only [h1] at h
      cases h2 : events.find? (pass2Hit now t) with
      | some e2 =>
        simp only [h2] at h
        obtain rfl : e2 = e := by injection h
        exact ⟨t, List.mem_cons_self t rest, List.find?_some h2⟩
      | none =>
        simp only [h2] at h
        obtain ⟨t', ht', hp⟩ := ih h
        exact ⟨t', List.mem_cons_of_mem t ht', hp⟩

/-- A second-pass hit pins down the event's status and, for the `upcoming`
tier, the strict-future guard. -/
theorem pass2Hit_status (now : Int) (t : String) (e : Event)
    (h : pass2Hit now t e = true) :
    e.GetStatus now = t ∧ (t = "upcoming" → e.Start > now) := by
  unfold pass2Hit at h
  rw [Bool.and_eq_true] at h
  obtain ⟨hs, hg⟩ := h
  refine ⟨by simpa using hs, fun ht => ?_⟩
  subst ht
  simp only [beq_self_eq_true, Bool.true_and, Bool.not_not] at hg
  exact of_decide_eq_true hg

/-- Claim C6: whenever `selectBestEvent` returns an event, that event's
classified status is not `"past"`, and if its status is `"upcoming"` its
start is strictly after `now`. -/
theorem selectBestEvent_never_past (events : List Event) (now : Int) (e : Event)
    (h : selectBestEvent events now = some e) :
    e.GetStatus now ≠ "past" ∧ (e.GetStatus now = "upcoming" → e.Start > now) := by
  unfold selectBestEvent at h
  split at h
  · exact absurd h (by simp)
  · obtain ⟨t, ht, hp⟩ := selectTiers_some_hit events now statusPriority e h
    obtain ⟨hst, hup⟩ := pass2Hit_status now t e hp
    have htlist : t = "current" ∨ t = "urgent" ∨ t = "soon" ∨ t = "upcoming" := by
      simpa [statusPriority] using ht
    constructor
    · rw [hst]
      rcases htlist with rfl | rfl | rfl | rfl <;> decide
    · intro hu
      exact hup (hst.symm.trans hu)

/-- Witness for `selectBestEvent_never_past` at a concrete input. -/
theorem selectBestEvent_never_past_witness :
    selectBestEvent [Event.mk "" 2 3 "" "" "" false "" [] "" true] 0 =
      some (Event.mk "" 2 3 "" "" "" false "" [] "" true) ∧
    Event.GetStatus (Event.mk "" 2 3 "" "" "" false "" [] "" true) 0 ≠ "past" :=
  ⟨rfl, (selectBestEvent_never_past [Event.mk "" 2 3 "" "" "" false "" [] "" true] 0
      (Event.mk "" 2 3 "" "" "" false "" [] "" true) rfl).1⟩

/-- Claim C7: the click handler opens a link only when the selected best
event's status is `"current"` or `"urgent"`, and the link it opens is the
Teams link when the event is an online meeting with a non-empty Teams link,
otherwise the non-empty web link. -/
theorem runClickDecision_opens_only_current_or_urgent (events : List Event)
    (now : Int) (u : String)
    (h : runClickDecision events now = ClickAction.openLink u) :
    ∃ e, selectBestEventForClick events now = some e ∧
      (e.GetStatus now = "current" ∨ e.GetStatus now = "urgent") ∧
      ((e.IsTeams = true ∧ e.TeamsLink ≠ "" ∧ u = e.TeamsLink) ∨
        (¬(e.IsTeams = true ∧ e.TeamsLink ≠ "") ∧ e.WebLink ≠ "" ∧ u = e.WebLink)) := by
  unfold runClickDecision at h
  cases hsel : selectBestEventForClick events now with
  | none =>
    simp only [hsel] at h
    exact ClickAction.noConfusion h
  | some b =>
    simp only [hsel] at h
    refine ⟨b, rfl, ?_⟩
    split_ifs at h with h1 h2 h3
    · refine ⟨by simpa using h1, Or.inl ?_⟩
      have h2' : b.IsTeams = true ∧ b.TeamsLink ≠ "" := by simpa using h2
      injection h with hu
      exact ⟨h2'.1, h2'.2, hu.symm⟩
    · refine ⟨by simpa using h1, Or.inr ?_⟩
      have h2' : ¬(b.IsTeams = true ∧ b.TeamsLink ≠ "") := by simpa using h2
      have h3' : b.WebLink ≠ "" := by simpa using h3
      injection h with hu
      exact ⟨h2', h3', hu.symm⟩

/-- Witness for `runClickDecision_opens_only_current_or_urgent` at a concrete
input: a current Teams meeting opens its Teams link. -/
theorem runClickDecision_witness :
    runClickDecision [Event.mk "m" 0 10 "" "w" "t" true "" [] "" true] 5 =
      ClickAction.openLink "t" ∧
    (∃ e, selectBestEventForClick [Event.mk "m" 0 10 "" "w" "t" true "" [] "" true] 5 = some e ∧
      (e.GetStatus 5 = "current" ∨ e.GetStatus 5 = "urgent") ∧
      ((e.IsTeams = true ∧ e.TeamsLink ≠ "" ∧ "t" = e.TeamsLink) ∨
        (¬(e.IsTeams = true ∧ e.TeamsLink ≠ "") ∧ e.WebLink ≠ "" ∧ "t" = e.WebLink))) :=
  ⟨rfl, runClickDecision_opens_only_current_or_urgent
    [Event.mk "m" 0 10 "" "w" "t" true "" [] "" true] 5 "t" rfl⟩

/-- Claim C9: on a fetch failure in one-shot waybar mode the program emits an
error-shaped payload (class `"error"`) and returns success (`none`); the text
is `"Auth Required"` exactly when the error message contains one of the
substrings `"authentication"`, `"token"`, `"login"`, and `"Calendar Error"`
with the error message as tooltip otherwise. -/
theorem runWaybarOnFetchError_spec (errMsg : String) :
    (runWaybarOnFetchError errMsg).2 = none ∧
    (runWaybarOnFetchError errMsg).1.Class_ = "error" ∧
    (runWaybarOnFetchError errMsg).1.Text =
      (if goContains errMsg "authentication" || goContains errMsg "token" ||
          goContains errMsg "login"
        then "Auth Required" else "Calendar Error") ∧
    (runWaybarOnFetchError errMsg).1.Tooltip =
      (if goContains errMsg "authentication" || goContains errMsg "token" ||
          goContains errMsg "login"
        then "Click to authenticate" else errMsg) := by
  unfold runWaybarOnFetchError
  cases hc : (goContains errMsg "authentication" || goContains errMsg "token" ||
      goContains errMsg "login") with
  | true => simp [hc]
  | false => simp [hc]

/-- Characters of a replacement result come from the replacement string or are
untouched characters different from the pattern. -/
theorem mem_goReplaceAllChar {x pat : Char} {rep l : List Char}
    (h : x ∈ goReplaceAllChar pat rep l) : x ∈ rep ∨ (x ∈ l ∧ x ≠ pat) := by
  induction l with
  | nil => simp [goReplaceAllChar] at h
  | cons c rest ih =>
    simp only [goReplaceAllChar, List.mem_append] at h
    cases h with
    | inl h1 =>
      by_cases hc : (c == pat) = true
      · rw [if_pos hc] at h1
        exact Or.inl h1
      · rw [if_neg hc] at h1
        have hx : x = c := by simpa using h1
        subst hx
        exact Or.inr ⟨List.mem_cons_self x rest, fun hp => hc (by rw [hp]; exact beq_self_eq_true pat)⟩
    | inr h2 =>
      rcases ih h2 with hr | ⟨hm, hne⟩
      · exact Or.inl hr
      · exact Or.inr ⟨List.mem_cons_of_mem c hm, hne⟩

/-- The escape output is free of raw angle brackets: a character of the
result either comes from one of the replacement strings (none of which
contains an angle bracket) or is an untouched character that survived the
passes for `<` and `>`. -/
theorem escapePangoMarkup_clean (s : String) : cleanString (escapePangoMarkup s) := by
  intro x hx
  have hx3 : x ∈ goReplaceAllChar '>' "&gt;".data
      (goReplaceAllChar '<' "&lt;".data (goReplaceAllChar '&' "&amp;".data s.data)) := by
    simpa [escapePangoMarkup] using hx
  refine ⟨fun hlt => ?_, fun hgt => ?_⟩
  · subst hlt
    rcases mem_goReplaceAllChar hx3 with hr | ⟨h2, _⟩
    · exact absurd hr (by decide)
    · rcases mem_goReplaceAllChar h2 with hr | ⟨_, hne⟩
      · exact absurd hr (by decide)
      · exact hne rfl
  · subst hgt
    rcases mem_goReplaceAllChar hx3 with hr | ⟨_, hne⟩
    · exact absurd hr (by decide)
    · exact hne rfl

/-- Appending preserves angle-bracket freedom. -/
theorem cleanString_append {s t : String} (hs : cleanString s) (ht : cleanString t) :
    cleanString (s ++ t) := by
  intro c hc
  rw [String.data_append] at hc
  rcases List.mem_append.mp hc with h | h
  · exact hs c h
  · exact ht c h

/-- A prefix of an angle-bracket-free character list is angle-bracket free. -/
theorem cleanChars_take {l : List Char} (n : Nat) (h : cleanChars l) :
    cleanChars (l.take n) :=
  fun c hc => h c (List.take_subset n l hc)

/-- Decimal digit characters are not angle brackets. -/
theorem decDigit_clean (d : Nat) : decDigit d ≠ '<' ∧ decDigit d ≠ '>' := by
  unfold decDigit
  split_ifs <;> exact ⟨by decide, by decide⟩

/-- The digit accumulator only ever adds decimal digit characters. -/
theorem natToDecimalAux_clean :
    ∀ (fuel n : Nat) (acc : List Char), cleanChars acc →
      cleanChars (natToDecimalAux fuel n acc) := by
  intro fuel
  induction fuel with
  | zero => intro n acc h; simpa [natToDecimalAux] using h
  | succ f ih =>
    intro n acc h
    cases n with
    | zero => simpa [natToDecimalAux] using h
    | succ m =>
      rw [natToDecimalAux]
      refine ih ((m + 1) / 10) _ ?_
      intro c hc
      rcases List.mem_cons.mp hc with rfl | hc'
      · exact decDigit_clean _
      · exact h c hc'

/-- Decimal renderings of naturals contain no angle brackets. -/
theorem natToDecimal_clean (n : Nat) : cleanChars (natToDecimal n) := by
  unfold natToDecimal
  split
  · decide
  · exact natToDecimalAux_clean n n [] (by simp [cleanChars])

/-- Rendered integers contain no angle brackets. -/
theorem intToDecimal_clean (t : Int) : cleanString (intToDecimal t) := by
  unfold intToDecimal
  split
  · intro c hc
    rcases List.mem_cons.mp hc with rfl | hc'
    · exact ⟨by decide, by decide⟩
    · exact natToDecimal_clean _ c hc'
  · exact natToDecimal_clean _

/-- Formatted clock times contain no angle brackets. -/
theorem formatHHMM_clean (t : Int) : cleanString (formatHHMM t) := by
  simp only [formatHHMM]
  intro c hc
  simp only [List.mem_cons, List.not_mem_nil, or_false] at hc
  rcases hc with rfl | rfl | rfl | rfl | rfl
  · exact decDigit_clean _
  · exact decDigit_clean _
  · exact ⟨by decide, by decide⟩
  · exact decDigit_clean _
  · exact decDigit_clean _

/-- Joining angle-bracket-free strings with an angle-bracket-free separator
stays angle-bracket free. -/
theorem goJoin_clean (sep : String) (hsep : cleanString sep) :
    ∀ l : List String, (∀ s ∈ l, cleanString s) → cleanString (goJoin sep l) := by
  intro l
  induction l with
  | nil =>
    intro _ c hc
    simp [goJoin] at hc
  | cons s rest ih =>
    intro h
    cases rest with
    | nil => simpa [goJoin] using h s (by simp)
    | cons r rs =>
      show cleanString (s ++ sep ++ goJoin sep (r :: rs))
      exact cleanString_append (cleanString_append (h s (by simp)) hsep)
        (ih (fun t ht => h t (by simp [ht])))

/-- The text and tooltip assembled by `generateWaybarOutput` are
angle-bracket free for every meeting and time: the subject reaches the text
only through `escapePangoMarkup` (possibly truncated), and everything else
is fixed text or rendered numbers. -/
theorem generateWaybarOutput_clean (meeting : Option Event) (now : Int) :
    cleanString (generateWaybarOutput meeting now).Text ∧
    cleanString (generateWaybarOutput meeting now).Tooltip := by
  cases meeting with
  | none =>
    constructor
    · show cleanString ("No meetings" : String)
      decide
    · show cleanString ("" : String)
      decide
  | some m =>
    constructor
    · simp only [generateWaybarOutput]
      split_ifs <;>
        · repeat' apply cleanString_append
          all_goals
            first
              | decide
              | exact escapePangoMarkup_clean _
              | exact intToDecimal_clean _
              | exact cleanChars_take _ (escapePangoMarkup_clean _)
    · show cleanString ("" : String)
      decide

/-- Each tooltip schedule line is angle-bracket free: subject and location
appear only through `escapePangoMarkup`, the rest is fixed text and clock
times. -/
theorem scheduleLine_clean (now : Int) (event : Event) :
    cleanString (scheduleLine now event) := by
  simp only [scheduleLine]
  split_ifs <;>
    · repeat' apply cleanString_append
      all_goals
        first
          | decide
          | exact escapePangoMarkup_clean _
          | exact formatHHMM_clean _

/-- The text and tooltip assembled by `generateWaybarOutputForSchedule` are
angle-bracket free for every display event, event list and time. -/
theorem generateWaybarOutputForSchedule_clean (displayEvent : Option Event)
    (allEvents : List Event) (now : Int) :
    cleanString (generateWaybarOutputForSchedule displayEvent allEvents now).Text ∧
    cleanString (generateWaybarOutputForSchedule displayEvent allEvents now).Tooltip := by
  cases displayEvent with
  | none =>
    constructor
    · show cleanString ("No meetings today" : String)
      decide
    · show cleanString ("No meetings scheduled for today" : String)
      decide
  | some d =>
    constructor
    · exact (generateWaybarOutput_clean (some d) now).1
    · simp only [generateWaybarOutputForSchedule]
      refine goJoin_clean "\n" (by decide) _ ?_
      intro s hs
      split at hs
      · simp at hs
        rcases hs with rfl | rfl | rfl <;> decide
      · split at hs
        · simp at hs
          rcases hs with rfl | rfl | ⟨e, -, rfl⟩ | rfl | rfl | rfl <;>
            first
              | decide
              | exact scheduleLine_clean now e
        · simp at hs
          rcases hs with rfl | rfl | ⟨e, -, rfl⟩ | rfl | rfl | rfl <;>
            first
              | decide
              | exact scheduleLine_clean now e

/-- Bridge from the membership predicate to the executable check. -/
theorem cleanString_any_eq_false {s : String} (h : cleanString s) :
    s.data.any (fun c => c == '<' || c == '>') = false := by
  cases hany : s.data.any (fun c => c == '<' || c == '>') with
  | false => rfl
  | true =>
    exfalso
    rw [List.any_eq_true] at hany
    obtain ⟨x, hx, hp⟩ := hany
    obtain ⟨h1, h2⟩ := h x hx
    have hx' : x = '<' ∨ x = '>' := by simpa using hp
    rcases hx' with rfl | rfl
    · exact h1 rfl
    · exact h2 rfl

/-- Claim C10: every subject and location embedded in the waybar output's
text and tooltip passes through `escapePangoMarkup`, which replaces `&`
first and then the angle brackets, so for every input the text and tooltip
emitted by `generateWaybarOutput` and `generateWaybarOutputForSchedule`
contain no raw `<` or `>` character; concretely, the escape maps `"&<>"` to
`"&amp;&lt;&gt;"`. -/
theorem waybar_output_no_raw_angle_brackets :
    (∀ (meeting : Option Event) (now : Int),
      (generateWaybarOutput meeting now).Text.data.any
        (fun c => c == '<' || c == '>') = false ∧
      (generateWaybarOutput meeting now).Tooltip.data.any
        (fun c => c == '<' || c == '>') = false) ∧
    (∀ (displayEvent : Option Event) (allEvents : List Event) (now : Int),
      (generateWaybarOutputForSchedule displayEvent allEvents now).Text.data.any
        (fun c => c == '<' || c == '>') = false ∧
      (generateWaybarOutputForSchedule displayEvent allEvents now).Tooltip.data.any
        (fun c => c == '<' || c == '>') = false) ∧
    escapePangoMarkup "&<>" = "&amp;&lt;&gt;" :=
  ⟨fun meeting now =>
    ⟨cleanString_any_eq_false (generateWaybarOutput_clean meeting now).1,
      cleanString_any_eq_false (generateWaybarOutput_clean meeting now).2⟩,
    fun displayEvent allEvents now =>
      ⟨cleanString_any_eq_false
          (generateWaybarOutputForSchedule_clean displayEvent allEvents now).1,
        cleanString_any_eq_false
          (generateWaybarOutputForSchedule_clean displayEvent allEvents now).2⟩,
    rfl⟩
